import Mathlib

/-!
Shallow embedding of the bulk SMS dispatch and balance-accounting core of
`bulk-backend`, covering the three revisions of the `sendSms` controller
(`src/unnamed/part_001` — per-recipient batched dispatch;
`src/controllers/smsController.js` and `src/unnamed/part_002` — single
bulk-call dispatch), the gateway client (`src/send_sms.js`), and the storage
rows they read and write.

Database reads and writes that the JavaScript performs through Sequelize are
modelled as pure operations on an explicit `Db` value; the Sequelize
transaction is modelled by accumulating the settle-phase writes and applying
them to the database only at the commit point, any thrown error on the way
triggering the `catch`/`rollback` path that leaves the database untouched.
Possible runtime failures of the settle-phase storage operations are injected
through a `SettleFaults` record. The external gateway is an oracle
`Gateway : String → String → SendSMSResult` mirroring the return type of
`sendSMS` in `src/send_sms.js` (numeric HTTP status on completion, the caught
error object on a transport failure).
-/

namespace BulkSms

/-- A row of the `Contact` model: id, display name, raw phone, owning client. -/
structure Contact where
  id : Nat
  name : String
  phone : String
  clientId : Nat
deriving DecidableEq, Repr

/-- Modelled from the spec: the `SmsBalance` row (the Sequelize model lives
outside `src/`). Spec §3: account identifier plus `totalAvailable`, a
non-negative integer count of sendable messages. -/
structure SmsBalance where
  clientId : Nat
  totalSmsAvailable : Nat
deriving DecidableEq, Repr

/-- Modelled from the spec: `hasSufficientCredit(accountId, n) -> bool`
(spec §4.2); the instance method `hasEnoughBalance(n)` used by all three
revisions. True when the account can pay for `n` messages. -/
def SmsBalance.hasEnoughBalance (b : SmsBalance) (n : Nat) : Bool :=
  n ≤ b.totalSmsAvailable

/-- Modelled from the spec: `debit(accountId, n)` (spec §4.2); the instance
method `deductSms(n)` used by all three revisions. Decreases
`totalSmsAvailable` by `n` (callers only invoke it after the sufficiency
check, so the subtraction does not truncate on the reachable paths). -/
def SmsBalance.deductSms (b : SmsBalance) (n : Nat) : SmsBalance :=
  { b with totalSmsAvailable := b.totalSmsAvailable - n }

/-- A row of the `SmsHistory` model as written by `SmsHistory.create`
(the `createdAt` timestamp carries no logic and is omitted). -/
structure HistoryEntry where
  clientId : Nat
  message : String
  recipientCount : Nat
  smsUsed : Nat
  status : String
deriving DecidableEq, Repr

/-- The relevant database state: contact rows, balance rows, history rows. -/
structure Db where
  contacts : List Contact
  balances : List SmsBalance
  history : List HistoryEntry
deriving DecidableEq, Repr

/-- `SmsBalance.findOne({where: {clientId}})`. -/
def findBalance (db : Db) (cid : Nat) : Option SmsBalance :=
  db.balances.find? (fun b => b.clientId == cid)

/-- `Contact.findAll({where: {clientId}})` (also `Contact.count` via length). -/
def clientContacts (db : Db) (cid : Nat) : List Contact :=
  db.contacts.filter (fun c => c.clientId == cid)

/-- `Contact.findAll({where: {id: contactIds, clientId}})`: rows whose id is
in the requested id set and whose owner is the requesting client. -/
def fetchExplicit (db : Db) (cid : Nat) (ids : List Nat) : List Contact :=
  db.contacts.filter (fun c => ids.contains c.id && c.clientId == cid)

/-- Result of the gateway client `sendSMS` (`src/send_sms.js`): on a completed
HTTP request it returns the numeric `response.status`; on a thrown transport
error it catches the error and returns the error object (carrying a
`message`). It never itself throws. -/
inductive SendSMSResult where
  | httpStatus (code : Nat)
  | errObj (message : String)
deriving DecidableEq, Repr

/-- The external gateway as an oracle: `sendSMS(numbers, message)`. -/
abbrev Gateway := String → String → SendSMSResult

/-- The JavaScript property read `sendResponse.success`: a `Number` (the
status-code return) and an `Error` object (the transport-failure return)
both carry no own `success` property, so the read yields `undefined`,
modelled as `none`. -/
def SendSMSResult.successField : SendSMSResult → Option Bool
  | .httpStatus _ => none
  | .errObj _ => none

/-- The JavaScript property read `smsResult.error` performed on a non-200
outcome in the batched revision: a `Number` has no `error` property, and the
gateway's caught `Error` object carries `message`, not `error`; both reads
yield `undefined`, modelled as `none`. -/
def SendSMSResult.errorField : SendSMSResult → Option String
  | .httpStatus _ => none
  | .errObj _ => none

/-- JavaScript truthiness of a possibly-`undefined` boolean. -/
def optTruthy : Option Bool → Bool
  | none => false
  | some b => b

/-- JavaScript `x || y` on a possibly-`undefined` string. -/
def orDefault : Option String → String → String
  | none, d => d
  | some s, _ => s

/-- The inbound request: client id from auth middleware, body fields, and the
outcome of the external `express-validator` check. A missing body field is
`none`. -/
structure SmsRequest where
  clientId : Nat
  message : Option String
  contactIds : Option (List Nat)
  sendToAll : Bool
  validationFailed : Bool
deriving DecidableEq, Repr

/-- JavaScript `String.prototype.trim`: strip leading and trailing
whitespace. -/
def jsTrim (s : String) : String :=
  ⟨((s.data.dropWhile Char.isWhitespace).reverse.dropWhile Char.isWhitespace).reverse⟩

/-- The message guard shared by all three revisions:
`!message || typeof message !== "string" || message.trim().length === 0`. -/
def messageInvalid : Option String → Bool
  | none => true
  | some m => (jsTrim m).length == 0

/-- Injected runtime failures of the settle-phase storage operations
(`deductSms`, `SmsHistory.create`, `transaction.commit`); a set flag makes
the corresponding operation throw when and only when it is reached. -/
structure SettleFaults where
  debit : Bool
  history : Bool
  commit : Bool
deriving DecidableEq, Repr

/-- No injected storage failures. -/
def noFaults : SettleFaults := ⟨false, false, false⟩

/-- A per-recipient outcome entry pushed into `sentMessages` /
`failedMessages` by the batched revision; `error` is absent on sent
entries. -/
structure MsgOutcome where
  contactId : Nat
  name : String
  phone : String
  status : String
  error : Option String
deriving DecidableEq, Repr

/-- The JSON responses the controller can produce (one constructor per
`res.json`/`res.status(..).json` site, keeping the data the claims are
about). -/
inductive Resp where
  | validationErrors
  | emptyMessage
  | contactIdsRequired
  | tooManyPerRequest
  | balanceNotFound
  | selectionMismatch
  | noContacts
  | insufficientBalance (required available : Nat)
  | serverError (error : String)
  | okBatched (totalContacts sentCount failedCount smsUsed remainingBalance : Nat)
      (sentMessages failedMessages : List MsgOutcome)
  | okBulk (totalContacts : Nat) (status : String) (gatewayResponse : SendSMSResult)
      (remainingBalance : Nat)
deriving DecidableEq, Repr

/-- Observable external events of one run: a gateway call (with the joined or
single phone-number string and the message) or an inter-batch delay. -/
inductive Ev where
  | call (numbers message : String)
  | delay (ms : Nat)
deriving DecidableEq, Repr

/-- The outcome of one controller run: the JSON response, the database after
commit or rollback, and the ordered trace of gateway calls and delays. -/
structure RunResult where
  resp : Resp
  db : Db
  events : List Ev
deriving DecidableEq, Repr

/-- `transaction.commit()`: the settle-phase writes become visible. -/
def commitTxn (db : Db) (balances : List SmsBalance) (history : List HistoryEntry) : Db :=
  { db with balances := balances, history := history }

/-- `MAX_SMS_PER_REQUEST` (both revisions). -/
def MAX_SMS_PER_REQUEST : Nat := 100000

/-- `BATCH_SIZE` (batched revision). -/
def BATCH_SIZE : Nat := 1000

/-- One recipient's outcome in the batched revision's `processBatch`:
`sendSMS(addPrefixToPhoneNumber(contact.phone), message)` followed by the
`smsResult === 200` test; a non-200 status or a returned error object yields
a failed entry with `smsResult.error || "Unknown error"`. -/
def outcomeOf (gw : Gateway) (addPrefixFn : String → String) (message : String)
    (c : Contact) : MsgOutcome :=
  match gw (addPrefixFn c.phone) message with
  | .httpStatus 200 => ⟨c.id, c.name, c.phone, "sent", none⟩
  | r => ⟨c.id, c.name, c.phone, "failed", some (orDefault r.errorField "Unknown error")⟩

/-- `processBatch`: every contact of the batch is sent through the gateway
and yields exactly one outcome entry (the in-flight concurrency of
`Promise.all` only affects push order, modelled here in batch order). -/
def processBatch (gw : Gateway) (addPrefixFn : String → String) (message : String)
    (batch : List Contact) : List MsgOutcome :=
  batch.map (outcomeOf gw addPrefixFn message)

/-- The slicing loop `for (i = 0; i < contacts.length; i += BATCH_SIZE)
{ contacts.slice(i, i + BATCH_SIZE) }`, written with explicit fuel (the loop
advances by `bs ≥ 1` elements per iteration, so `l.length` iterations always
suffice). -/
def chunkLoop (bs : Nat) : Nat → List Contact → List (List Contact)
  | _, [] => []
  | 0, _ :: _ => []
  | fuel + 1, l => l.take bs :: chunkLoop bs fuel (l.drop bs)

/-- The batched revision's partition of the recipient list. -/
def toBatches (bs : Nat) (l : List Contact) : List (List Contact) :=
  chunkLoop bs l.length l

/-- The gateway calls issued for one batch, in batch order. -/
def batchEvents (addPrefixFn : String → String) (message : String)
    (batch : List Contact) : List Ev :=
  batch.map (fun c => Ev.call (addPrefixFn c.phone) message)

/-- The event trace of the sequential batch loop: after each batch except the
last (`i + BATCH_SIZE < contacts.length`) a fixed 1000 ms delay is awaited. -/
def dispatchEvents (addPrefixFn : String → String) (message : String) :
    List (List Contact) → List Ev
  | [] => []
  | [b] => batchEvents addPrefixFn message b
  | b :: b2 :: rest =>
      batchEvents addPrefixFn message b ++
        Ev.delay 1000 :: dispatchEvents addPrefixFn message (b2 :: rest)

/-- All per-recipient outcomes of the batch loop, in batch order. -/
def dispatchOutcomes (gw : Gateway) (addPrefixFn : String → String) (message : String)
    (batches : List (List Contact)) : List MsgOutcome :=
  (batches.map (processBatch gw addPrefixFn message)).flatten

/-- The settle phase of the batched revision (`src/unnamed/part_001` lines
180–211): only when `successfulSends > 0` are the debit (by the sent count)
and the history row (status `"sent"`, both count fields equal to the sent
count) written, inside the transaction; any injected failure diverts to the
`catch`/rollback path. `remainingBalance` reads the (possibly updated)
balance instance. -/
def v1Settle (faults : SettleFaults) (cid : Nat) (message : String) (db : Db)
    (events : List Ev) (smsBalance : SmsBalance) (totalContacts : Nat)
    (sentMessages failedMessages : List MsgOutcome) : RunResult :=
  let successfulSends := sentMessages.length
  if successfulSends > 0 then
    if faults.debit then ⟨.serverError "debit failed", db, events⟩ else
    let newBal := smsBalance.deductSms successfulSends
    let balances := db.balances.map (fun b => if b.clientId == cid then newBal else b)
    if faults.history then ⟨.serverError "history write failed", db, events⟩ else
    let entry : HistoryEntry := ⟨cid, message, successfulSends, successfulSends, "sent"⟩
    let history := db.history ++ [entry]
    if faults.commit then ⟨.serverError "commit failed", db, events⟩ else
    ⟨.okBatched totalContacts sentMessages.length failedMessages.length successfulSends
        newBal.totalSmsAvailable sentMessages failedMessages,
      commitTxn db balances history, events⟩
  else
    if faults.commit then ⟨.serverError "commit failed", db, events⟩ else
    ⟨.okBatched totalContacts sentMessages.length failedMessages.length successfulSends
        smsBalance.totalSmsAvailable sentMessages failedMessages,
      db, events⟩

/-- The `sendToAll` chunked fetch of the batched revision: repeated
`Contact.findAll({where: {clientId}, offset, limit})` until an empty page,
concatenating in storage order; fuel bounds the page loop. -/
def pagedFetchLoop (rows : List Contact) (limit : Nat) : Nat → Nat → List Contact
  | 0, _ => []
  | fuel + 1, offset =>
    let batch := (rows.drop offset).take limit
    if batch.isEmpty then [] else batch ++ pagedFetchLoop rows limit fuel (offset + limit)

/-- The batched revision's recipient resolution for `sendToAll`. -/
def pagedFetchAll (db : Db) (cid : Nat) : List Contact :=
  let rows := clientContacts db cid
  pagedFetchLoop rows BATCH_SIZE (rows.length + 1) 0

/-- The tail of the batched revision once the recipient list is resolved
(`src/unnamed/part_001` lines 112–211): empty check, balance sufficiency
check, sequential batched dispatch, settle. -/
def v1AfterResolve (gw : Gateway) (addPrefixFn : String → String) (faults : SettleFaults)
    (cid : Nat) (message : String) (db : Db) (smsBalance : SmsBalance)
    (contacts : List Contact) : RunResult :=
  if contacts.isEmpty then ⟨.noContacts, db, []⟩ else
  let smsCount := contacts.length
  if !(smsBalance.hasEnoughBalance smsCount) then
    ⟨.insufficientBalance smsCount smsBalance.totalSmsAvailable, db, []⟩
  else
    let batches := toBatches BATCH_SIZE contacts
    let outcomes := dispatchOutcomes gw addPrefixFn message batches
    let events := dispatchEvents addPrefixFn message batches
    let sentMessages := outcomes.filter (fun o => o.status == "sent")
    let failedMessages := outcomes.filter (fun o => o.status == "failed")
    v1Settle faults cid message db events smsBalance smsCount sentMessages failedMessages

/-- `sendSms` of `src/unnamed/part_001` (per-recipient batched revision):
validation, message guard, pre-count rate limit, balance lookup (404 when
missing), recipient resolution (paged for `sendToAll`, id-set fetch with the
count-mismatch guard otherwise), then `v1AfterResolve`. -/
def sendSmsV1 (gw : Gateway) (addPrefixFn : String → String) (faults : SettleFaults)
    (req : SmsRequest) (db : Db) : RunResult :=
  if req.validationFailed then ⟨.validationErrors, db, []⟩ else
  if messageInvalid req.message then ⟨.emptyMessage, db, []⟩ else
  let message := req.message.getD ""
  match req.sendToAll, req.contactIds with
  | false, none => ⟨.contactIdsRequired, db, []⟩
  | true, _ =>
    let totalContactsCount := (clientContacts db req.clientId).length
    if totalContactsCount > MAX_SMS_PER_REQUEST then ⟨.tooManyPerRequest, db, []⟩ else
    match findBalance db req.clientId with
    | none => ⟨.balanceNotFound, db, []⟩
    | some smsBalance =>
      let contacts := pagedFetchAll db req.clientId
      v1AfterResolve gw addPrefixFn faults req.clientId message db smsBalance contacts
  | false, some ids =>
    let totalContactsCount := ids.length
    if totalContactsCount > MAX_SMS_PER_REQUEST then ⟨.tooManyPerRequest, db, []⟩ else
    match findBalance db req.clientId with
    | none => ⟨.balanceNotFound, db, []⟩
    | some smsBalance =>
      let contacts := fetchExplicit db req.clientId ids
      if contacts.length == ids.length then
        v1AfterResolve gw addPrefixFn faults req.clientId message db smsBalance contacts
      else ⟨.selectionMismatch, db, []⟩

/-- The recipient resolution of the bulk revisions
(`src/controllers/smsController.js` lines 36–60): unpaged fetch for
`sendToAll`, id-set fetch with the count-mismatch guard for explicit ids,
`contactIdsRequired` otherwise. -/
def resolveContacts (req : SmsRequest) (db : Db) : Except Resp (List Contact) :=
  if req.sendToAll then .ok (clientContacts db req.clientId)
  else match req.contactIds with
  | some ids =>
    let fetched := fetchExplicit db req.clientId ids
    if fetched.length == ids.length then .ok fetched else .error .selectionMismatch
  | none => .error .contactIdsRequired

/-- `numbers = contacts.map(c => addPrefixToPhoneNumber(c.phone)).join(",")`. -/
def joinNumbers (addPrefixFn : String → String) (contacts : List Contact) : String :=
  String.intercalate "," (contacts.map (fun c => addPrefixFn c.phone))

/-- The settle phase of the bulk revisions
(`src/controllers/smsController.js` lines 102–127): the debit (by the full
contact count) and the history row (both count fields equal to the contact
count, status from the truthiness of `sendResponse.success`) are written
unconditionally inside the transaction; any injected failure diverts to the
`catch`/rollback path. -/
def v2Settle (faults : SettleFaults) (cid : Nat) (message : String) (db : Db)
    (events : List Ev) (smsBalance : SmsBalance) (contactCount : Nat)
    (sendResponse : SendSMSResult) : RunResult :=
  if faults.debit then ⟨.serverError "debit failed", db, events⟩ else
  let newBal := smsBalance.deductSms contactCount
  let balances := db.balances.map (fun b => if b.clientId == cid then newBal else b)
  if faults.history then ⟨.serverError "history write failed", db, events⟩ else
  let status := if optTruthy sendResponse.successField then "sent" else "failed"
  let entry : HistoryEntry := ⟨cid, message, contactCount, contactCount, status⟩
  let history := db.history ++ [entry]
  if faults.commit then ⟨.serverError "commit failed", db, events⟩ else
  ⟨.okBulk contactCount status sendResponse newBal.totalSmsAvailable,
    commitTxn db balances history, events⟩

/-- `sendSms` of `src/controllers/smsController.js` (single bulk-call
revision): validation, message guard, resolution, empty and rate-limit
checks, merged missing-balance/insufficient check (`!smsBalance ||
!smsBalance.hasEnoughBalance(...)`, reporting
`smsBalance?.totalSmsAvailable || 0`), one gateway call on the joined
numbers, then `v2Settle`. -/
def sendSmsV2 (gw : Gateway) (addPrefixFn : String → String) (faults : SettleFaults)
    (req : SmsRequest) (db : Db) : RunResult :=
  if req.validationFailed then ⟨.validationErrors, db, []⟩ else
  if messageInvalid req.message then ⟨.emptyMessage, db, []⟩ else
  let message := req.message.getD ""
  match resolveContacts req db with
  | .error r => ⟨r, db, []⟩
  | .ok contacts =>
    if contacts.isEmpty then ⟨.noContacts, db, []⟩ else
    if contacts.length > MAX_SMS_PER_REQUEST then ⟨.tooManyPerRequest, db, []⟩ else
    match findBalance db req.clientId with
    | none => ⟨.insufficientBalance contacts.length 0, db, []⟩
    | some smsBalance =>
      if !(smsBalance.hasEnoughBalance contacts.length) then
        ⟨.insufficientBalance contacts.length smsBalance.totalSmsAvailable, db, []⟩
      else
        let numbers := joinNumbers addPrefixFn contacts
        let sendResponse := gw numbers message
        let events := [Ev.call numbers message]
        v2Settle faults req.clientId message db events smsBalance contacts.length sendResponse

/-- `sendSms` of `src/unnamed/part_002`, textually identical to the
`smsController.js` revision: validation, message guard, resolution, empty and
rate-limit checks, merged missing-balance/insufficient check, one gateway
call on the joined numbers, then the unconditional debit-and-history settle. -/
def sendSmsV3 (gw : Gateway) (addPrefixFn : String → String) (faults : SettleFaults)
    (req : SmsRequest) (db : Db) : RunResult :=
  if req.validationFailed then ⟨.validationErrors, db, []⟩ else
  if messageInvalid req.message then ⟨.emptyMessage, db, []⟩ else
  let message := req.message.getD ""
  match resolveContacts req db with
  | .error r => ⟨r, db, []⟩
  | .ok contacts =>
    if contacts.isEmpty then ⟨.noContacts, db, []⟩ else
    if contacts.length > MAX_SMS_PER_REQUEST then ⟨.tooManyPerRequest, db, []⟩ else
    match findBalance db req.clientId with
    | none => ⟨.insufficientBalance contacts.length 0, db, []⟩
    | some smsBalance =>
      if !(smsBalance.hasEnoughBalance contacts.length) then
        ⟨.insufficientBalance contacts.length smsBalance.totalSmsAvailable, db, []⟩
      else
        let numbers := joinNumbers addPrefixFn contacts
        let sendResponse := gw numbers message
        let events := [Ev.call numbers message]
        v2Settle faults req.clientId message db events smsBalance contacts.length sendResponse

/-- The requesting client's available credit in a database state (`0` when
the balance row is absent, as in the bulk revisions' `?.totalSmsAvailable ||
0` read). -/
def getAvail (db : Db) (cid : Nat) : Nat :=
  ((findBalance db cid).map (fun b => b.totalSmsAvailable)).getD 0

/-- The sent count a response reports (`data.sentCount` of the batched
revision's success payload; every other response reports no sent count). -/
def sentCountOf : Resp → Nat
  | .okBatched _ sentCount _ _ _ _ _ => sentCount
  | _ => 0

/-- A sequence of dispatch operations against the batched revision, each with
its own injected-fault environment, threading the database and collecting the
responses. -/
def runSeqV1 (gw : Gateway) (addPrefixFn : String → String) :
    Db → List (SettleFaults × SmsRequest) → Db × List Resp
  | db, [] => (db, [])
  | db, (f, r) :: rest =>
    let out := sendSmsV1 gw addPrefixFn f r db
    let next := runSeqV1 gw addPrefixFn out.db rest
    (next.1, out.resp :: next.2)

/-- The total sent count reported across a sequence of responses. -/
def totalSent (resps : List Resp) : Nat :=
  (resps.map sentCountOf).sum

/-! ### Concrete scenario used by the witnesses and counterexamples -/

/-- A gateway whose every call completes with HTTP status 200. -/
def gwOk200 : Gateway := fun _ _ => .httpStatus 200

/-- A gateway whose every call fails with a caught transport error. -/
def gwDown : Gateway := fun _ _ => .errObj "timeout"

/-- A gateway whose every call completes with HTTP status 500. -/
def gwBad500 : Gateway := fun _ _ => .httpStatus 500

/-- A concrete phone-number formatter standing in for
`addPrefixToPhoneNumber`. -/
def addP : String → String := fun s => "+255" ++ s

/-- A small database: clients 1 and 2, three contacts, balances 5 and 1. -/
def dbA : Db :=
  { contacts := [⟨1, "a", "0712", 1⟩, ⟨2, "b", "0713", 1⟩, ⟨3, "c", "0714", 2⟩],
    balances := [⟨1, 5⟩, ⟨2, 1⟩], history := [] }

/-- A database for the insufficient-balance scenario of the spec's example:
client 1 has ten contacts but only 2 credits. -/
def dbTen : Db :=
  { contacts :=
      [⟨1, "c1", "0701", 1⟩, ⟨2, "c2", "0702", 1⟩, ⟨3, "c3", "0703", 1⟩,
       ⟨4, "c4", "0704", 1⟩, ⟨5, "c5", "0705", 1⟩, ⟨6, "c6", "0706", 1⟩,
       ⟨7, "c7", "0707", 1⟩, ⟨8, "c8", "0708", 1⟩, ⟨9, "c9", "0709", 1⟩,
       ⟨10, "c10", "0710", 1⟩],
    balances := [⟨1, 2⟩], history := [] }

/-- A send-to-all request by client 1. -/
def reqAll : SmsRequest := ⟨1, some "hello", none, true, false⟩

/-- An explicit-ids request by client 1 for contacts 1 and 2. -/
def reqIds : SmsRequest := ⟨1, some "hello", some [1, 2], false, false⟩

/-- An explicit-ids request by client 1 naming contact 3, which belongs to
client 2. -/
def reqForeign : SmsRequest := ⟨1, some "hello", some [1, 2, 3], false, false⟩

/-- An explicit-ids request by client 1 with a duplicated id. -/
def reqDup : SmsRequest := ⟨1, some "hello", some [1, 1], false, false⟩

/-! ### Structural lemmas about the batching loop and the paged fetch -/

theorem chunkLoop_flatten (bs : Nat) (hbs : 0 < bs) :
    ∀ (fuel : Nat) (l : List Contact), l.length ≤ fuel →
      (chunkLoop bs fuel l).flatten = l := by
  intro fuel
  induction fuel with
  | zero =>
    intro l hl
    cases l with
    | nil => rfl
    | cons x xs => simp at hl
  | succ n ih =>
    intro l hl
    cases l with
    | nil => rfl
    | cons x xs =>
      simp only [chunkLoop, List.flatten_cons]
      rw [ih ((x :: xs).drop bs)]
      · exact List.take_append_drop bs (x :: xs)
      · have hdrop : ((x :: xs).drop bs).length = (x :: xs).length - bs := by
          simp [List.length_drop]
        have hlen : (x :: xs).length = xs.length + 1 := by simp
        omega

theorem chunkLoop_mem (bs : Nat) (hbs : 0 < bs) :
    ∀ (fuel : Nat) (l : List Contact) (b : List Contact),
      b ∈ chunkLoop bs fuel l → b.length ≤ bs ∧ b ≠ [] := by
  intro fuel
  induction fuel with
  | zero =>
    intro l b hb
    cases l with
    | nil => simp [chunkLoop] at hb
    | cons x xs => simp [chunkLoop] at hb
  | succ n ih =>
    intro l b hb
    cases l with
    | nil => simp [chunkLoop] at hb
    | cons x xs =>
      simp only [chunkLoop, List.mem_cons] at hb
      rcases hb with hb | hb
      · subst hb
        refine ⟨List.length_take_le bs (x :: xs), ?_⟩
        cases bs with
        | zero => omega
        | succ m => simp [List.take_succ_cons]
      · exact ih _ _ hb

theorem toBatches_flatten (bs : Nat) (hbs : 0 < bs) (l : List Contact) :
    (toBatches bs l).flatten = l :=
  chunkLoop_flatten bs hbs l.length l le_rfl

theorem toBatches_mem (bs : Nat) (hbs : 0 < bs) (l b : List Contact)
    (hb : b ∈ toBatches bs l) : b.length ≤ bs ∧ b ≠ [] :=
  chunkLoop_mem bs hbs l.length l b hb

theorem pagedFetchLoop_eq (rows : List Contact) (limit : Nat) (hl : 0 < limit) :
    ∀ (fuel offset : Nat), rows.length - offset < fuel →
      pagedFetchLoop rows limit fuel offset = rows.drop offset := by
  intro fuel
  induction fuel with
  | zero => intro offset h; omega
  | succ n ih =>
    intro offset h
    simp only [pagedFetchLoop]
    by_cases hempty : ((rows.drop offset).take limit).isEmpty
    · simp only [hempty]
      simp only [List.isEmpty_iff, List.take_eq_nil_iff] at hempty
      rcases hempty with h0 | hnil
      · omega
      · simp [if_pos, hnil]
    · simp only [hempty]
      simp only [Bool.false_eq_true, if_false]
      have hne : rows.drop offset ≠ [] := by
        intro hc
        simp [hc, List.isEmpty_iff] at hempty
      have hlt : offset < rows.length := by
        by_contra hge
        push_neg at hge
        exact hne (List.drop_eq_nil_of_le hge)
      rw [ih (offset + limit) (by omega)]
      rw [← List.drop_drop]
      exact List.take_append_drop limit (rows.drop offset)

theorem pagedFetchAll_eq (db : Db) (cid : Nat) :
    pagedFetchAll db cid = clientContacts db cid := by
  unfold pagedFetchAll
  rw [pagedFetchLoop_eq (clientContacts db cid) BATCH_SIZE (by decide)
    ((clientContacts db cid).length + 1) 0 (by omega)]
  rfl

theorem dispatchOutcomes_toBatches (gw : Gateway) (addPrefixFn : String → String)
    (message : String) (bs : Nat) (hbs : 0 < bs) (l : List Contact) :
    dispatchOutcomes gw addPrefixFn message (toBatches bs l)
      = l.map (outcomeOf gw addPrefixFn message) := by
  unfold dispatchOutcomes processBatch
  rw [← List.map_flatten, toBatches_flatten bs hbs l]

/-- The event trace of the sequential batch loop is exactly the per-batch
call lists with a single fixed 1000 ms delay interspersed between consecutive
batches (and hence no delay after the last batch). -/
theorem dispatchEvents_eq_intersperse (addPrefixFn : String → String) (message : String) :
    ∀ batches : List (List Contact),
      dispatchEvents addPrefixFn message batches
        = ((batches.map (batchEvents addPrefixFn message)).intersperse [Ev.delay 1000]).flatten
  | [] => rfl
  | [b] => by simp [dispatchEvents, List.intersperse_singleton]
  | b :: b2 :: rest => by
    simp only [dispatchEvents, List.map_cons, List.intersperse_cons_cons, List.flatten_cons]
    rw [dispatchEvents_eq_intersperse addPrefixFn message (b2 :: rest)]
    simp

/-- Each per-recipient outcome of the batched revision is either `sent` or
`failed`. -/
theorem outcomeOf_status (gw : Gateway) (addPrefixFn : String → String)
    (message : String) (c : Contact) :
    (outcomeOf gw addPrefixFn message c).status = "sent"
      ∨ (outcomeOf gw addPrefixFn message c).status = "failed" := by
  unfold outcomeOf
  split
  · exact Or.inl rfl
  · exact Or.inr rfl

theorem length_filter_sent_add_failed :
    ∀ l : List MsgOutcome,
      (∀ o ∈ l, o.status = "sent" ∨ o.status = "failed") →
        (l.filter (fun o => o.status == "sent")).length
          + (l.filter (fun o => o.status == "failed")).length = l.length := by
  intro l
  induction l with
  | nil => intro _; rfl
  | cons x xs ih =>
    intro h
    have hx := h x (List.mem_cons_self x xs)
    have hxs := fun o ho => h o (List.mem_cons_of_mem x ho)
    have hih := ih hxs
    rcases hx with hx | hx
    · have h1 : (x.status == "sent") = true := by rw [hx]; decide
      have h2 : (x.status == "failed") = false := by rw [hx]; decide
      simp [List.filter_cons, h1, h2]
      omega
    · have h1 : (x.status == "sent") = false := by rw [hx]; decide
      have h2 : (x.status == "failed") = true := by rw [hx]; decide
      simp [List.filter_cons, h1, h2]
      omega

/-- `find?` over the settle-phase row update: the updated row is found in
place of the old one (the update preserves the client id). -/
theorem find?_map_update (l : List SmsBalance) (cid : Nat) (newBal : SmsBalance)
    (h : newBal.clientId = cid) :
    (l.map (fun b => if b.clientId == cid then newBal else b)).find?
        (fun b => b.clientId == cid)
      = (l.find? (fun b => b.clientId == cid)).map (fun _ => newBal) := by
  induction l with
  | nil => rfl
  | cons x xs ih =>
    by_cases hx : x.clientId = cid
    · simp [List.find?_cons, hx, h]
    · have hx' : (x.clientId == cid) = false := by simp [hx]
      simp only [List.map_cons, hx', if_false, List.find?_cons, ih]
      simp [hx']

/-- If the settle-phase row update replaces a row the lookup found by a
different row, the balances list itself changes. -/
theorem map_update_ne (l : List SmsBalance) (cid : Nat) (bal newBal : SmsBalance)
    (hfind : l.find? (fun b => b.clientId == cid) = some bal) (hne : newBal ≠ bal) :
    l.map (fun b => if b.clientId == cid then newBal else b) ≠ l := by
  induction l with
  | nil => simp at hfind
  | cons x xs ih =>
    by_cases hx : x.clientId = cid
    · have hx' : (x.clientId == cid) = true := by simp [hx]
      simp only [List.find?_cons, hx'] at hfind
      have hxbal : x = bal := by injection hfind
      simp only [List.map_cons, hx', if_true]
      intro hc
      injection hc with h1 h2
      exact hne (h1.trans hxbal)
    · have hx' : (x.clientId == cid) = false := by simp [hx]
      simp only [List.find?_cons, hx'] at hfind
      simp only [List.map_cons, hx', if_false]
      intro hc
      injection hc with h1 h2
      exact ih hfind h2

/-! ### The bulk revisions' settle phase -/

/-- Neither return shape of the gateway client carries a `success` property,
so the controller's truthiness test on `sendResponse.success` is always
false. -/
theorem successField_falsy (r : SendSMSResult) : optTruthy r.successField = false := by
  cases r <;> rfl

/-- The bulk settle phase either rolls back (leaving the database untouched)
or commits the full-count debit together with a history row whose status is
`"failed"`. -/
theorem v2Settle_shape (faults : SettleFaults) (cid : Nat) (message : String) (db : Db)
    (events : List Ev) (smsBalance : SmsBalance) (contactCount : Nat)
    (sendResponse : SendSMSResult) :
    (v2Settle faults cid message db events smsBalance contactCount sendResponse
        = ⟨.serverError "debit failed", db, events⟩
      ∨ v2Settle faults cid message db events smsBalance contactCount sendResponse
        = ⟨.serverError "history write failed", db, events⟩
      ∨ v2Settle faults cid message db events smsBalance contactCount sendResponse
        = ⟨.serverError "commit failed", db, events⟩)
    ∨ (faults = noFaults
      ∧ v2Settle faults cid message db events smsBalance contactCount sendResponse
        = ⟨.okBulk contactCount "failed" sendResponse
              (smsBalance.deductSms contactCount).totalSmsAvailable,
            commitTxn db
              (db.balances.map (fun b =>
                if b.clientId == cid then smsBalance.deductSms contactCount else b))
              (db.history ++ [⟨cid, message, contactCount, contactCount, "failed"⟩]),
            events⟩) := by
  rcases faults with ⟨d, h, c⟩
  cases d
  · cases h
    · cases c
      · right
        refine ⟨rfl, ?_⟩
        simp [v2Settle, successField_falsy, noFaults]
      · left; right; right; simp [v2Settle]
    · left; right; left; simp [v2Settle]
  · left; left; simp [v2Settle]

/-- The bulk revisions' resolver only fails with the selection-mismatch or
the ids-required rejection. -/
theorem resolveContacts_error (req : SmsRequest) (db : Db) (r : Resp)
    (h : resolveContacts req db = .error r) :
    r = Resp.selectionMismatch ∨ r = Resp.contactIdsRequired := by
  unfold resolveContacts at h
  split at h
  · cases h
  · split at h
    · simp only [] at h
      split at h
      · cases h
      · injection h with h1
        exact Or.inl h1.symm
    · injection h with h1
      exact Or.inr h1.symm

/-- Ledger effect of one bulk-revision run: either nothing was committed, the
database is unchanged and no bulk result is reported, or (only with no
injected faults) the run committed the full-count debit and one `"failed"`
history row, and responded with the committed result. -/
theorem sendSmsV2_ledger (gw : Gateway) (addPrefixFn : String → String)
    (faults : SettleFaults) (req : SmsRequest) (db : Db) :
    ((sendSmsV2 gw addPrefixFn faults req db).db = db
      ∧ ∀ n s g b, (sendSmsV2 gw addPrefixFn faults req db).resp ≠ Resp.okBulk n s g b)
    ∨ (∃ smsBalance contacts,
        findBalance db req.clientId = some smsBalance
        ∧ resolveContacts req db = .ok contacts
        ∧ contacts ≠ []
        ∧ contacts.length ≤ smsBalance.totalSmsAvailable
        ∧ faults = noFaults
        ∧ sendSmsV2 gw addPrefixFn faults req db
          = ⟨.okBulk contacts.length "failed"
                (gw (joinNumbers addPrefixFn contacts) (req.message.getD ""))
                (smsBalance.deductSms contacts.length).totalSmsAvailable,
              commitTxn db
                (db.balances.map (fun b =>
                  if b.clientId == req.clientId
                  then smsBalance.deductSms contacts.length else b))
                (db.history ++
                  [⟨req.clientId, req.message.getD "", contacts.length,
                    contacts.length, "failed"⟩]),
              [Ev.call (joinNumbers addPrefixFn contacts) (req.message.getD "")]⟩) := by
  unfold sendSmsV2
  split
  · exact Or.inl ⟨rfl, fun n s g b h => by cases h⟩
  split
  · exact Or.inl ⟨rfl, fun n s g b h => by cases h⟩
  split
  · rename_i r hreserr
    refine Or.inl ⟨rfl, fun n s g b h => ?_⟩
    rcases resolveContacts_error req db r hreserr with h1 | h1 <;> (subst h1; cases h)
  rename_i contacts hres
  split
  · exact Or.inl ⟨rfl, fun n s g b h => by cases h⟩
  split
  · exact Or.inl ⟨rfl, fun n s g b h => by cases h⟩
  split
  · exact Or.inl ⟨rfl, fun n s g b h => by cases h⟩
  rename_i smsBalance hbal
  split
  · exact Or.inl ⟨rfl, fun n s g b h => by cases h⟩
  rename_i hsuff
  rcases v2Settle_shape faults req.clientId (req.message.getD "") db
      [Ev.call (joinNumbers addPrefixFn contacts) (req.message.getD "")]
      smsBalance contacts.length
      (gw (joinNumbers addPrefixFn contacts) (req.message.getD ""))
    with (hset | hset | hset) | ⟨hnf, hset⟩
  · rw [hset]; exact Or.inl ⟨rfl, fun n s g b h => by cases h⟩
  · rw [hset]; exact Or.inl ⟨rfl, fun n s g b h => by cases h⟩
  · rw [hset]; exact Or.inl ⟨rfl, fun n s g b h => by cases h⟩
  · right
    rename_i hv hm sc1 hne hmax sc2
    refine ⟨smsBalance, contacts, hbal, hres, ?_, ?_, hnf, hset⟩
    · intro hc
      subst hc
      simp at hne
    · have hq : smsBalance.hasEnoughBalance contacts.length = true := by
        cases hq : smsBalance.hasEnoughBalance contacts.length
        · rw [hq] at hsuff; simp at hsuff
        · rfl
      simpa [SmsBalance.hasEnoughBalance, decide_eq_true_eq] using hq

/-- Ledger effect of the batched revision's post-resolution tail: either
nothing was committed (the database is unchanged, no sent count is reported,
and any reported `remainingBalance` equals the untouched balance), or (only
with no injected faults) the run committed a debit by the positive sent count
`s` together with one `"sent"` history row carrying `s` in both count fields,
and reported `remainingBalance` equal to the post-debit balance. -/
theorem v1AfterResolve_ledger (gw : Gateway) (addPrefixFn : String → String)
    (faults : SettleFaults) (cid : Nat) (message : String) (db : Db)
    (smsBalance : SmsBalance) (contacts : List Contact)
    (hbal : findBalance db cid = some smsBalance) :
    ((v1AfterResolve gw addPrefixFn faults cid message db smsBalance contacts).db = db
      ∧ sentCountOf (v1AfterResolve gw addPrefixFn faults cid message db smsBalance contacts).resp = 0
      ∧ (∀ n sc fc su rem sm fm,
          (v1AfterResolve gw addPrefixFn faults cid message db smsBalance contacts).resp
            = Resp.okBatched n sc fc su rem sm fm → getAvail db cid = rem))
    ∨ (∃ s, 0 < s ∧ s ≤ smsBalance.totalSmsAvailable ∧ faults = noFaults
        ∧ sentCountOf (v1AfterResolve gw addPrefixFn faults cid message db smsBalance contacts).resp = s
        ∧ (∀ n sc fc su rem sm fm,
            (v1AfterResolve gw addPrefixFn faults cid message db smsBalance contacts).resp
              = Resp.okBatched n sc fc su rem sm fm → rem = smsBalance.totalSmsAvailable - s)
        ∧ (v1AfterResolve gw addPrefixFn faults cid message db smsBalance contacts).db
            = commitTxn db
                (db.balances.map (fun b =>
                  if b.clientId == cid then smsBalance.deductSms s else b))
                (db.history ++ [⟨cid, message, s, s, "sent"⟩])) := by
  unfold v1AfterResolve
  split
  · exact Or.inl ⟨rfl, rfl, fun n sc fc su rem sm fm h => by cases h⟩
  simp only []
  split
  · exact Or.inl ⟨rfl, rfl, fun n sc fc su rem sm fm h => by cases h⟩
  rename_i hne hsuff
  have hq : smsBalance.hasEnoughBalance contacts.length = true := by
    cases hq : smsBalance.hasEnoughBalance contacts.length
    · rw [hq] at hsuff; simp at hsuff
    · rfl
  have hlen : contacts.length ≤ smsBalance.totalSmsAvailable := by
    simpa [SmsBalance.hasEnoughBalance, decide_eq_true_eq] using hq
  have hout : dispatchOutcomes gw addPrefixFn message (toBatches BATCH_SIZE contacts)
      = contacts.map (outcomeOf gw addPrefixFn message) :=
    dispatchOutcomes_toBatches gw addPrefixFn message BATCH_SIZE (by decide) contacts
  have hsle : ((dispatchOutcomes gw addPrefixFn message
        (toBatches BATCH_SIZE contacts)).filter (fun o => o.status == "sent")).length
      ≤ smsBalance.totalSmsAvailable := by
    rw [hout]
    calc ((contacts.map (outcomeOf gw addPrefixFn message)).filter
            (fun o => o.status == "sent")).length
        ≤ (contacts.map (outcomeOf gw addPrefixFn message)).length :=
          List.length_filter_le _ _
      _ = contacts.length := List.length_map _ _
      _ ≤ smsBalance.totalSmsAvailable := hlen
  unfold v1Settle
  simp only []
  split
  · rename_i hpos
    split
    · exact Or.inl ⟨rfl, rfl, fun n sc fc su rem sm fm h => by cases h⟩
    split
    · exact Or.inl ⟨rfl, rfl, fun n sc fc su rem sm fm h => by cases h⟩
    split
    · exact Or.inl ⟨rfl, rfl, fun n sc fc su rem sm fm h => by cases h⟩
    rename_i hd hh hc
    right
    refine ⟨_, hpos, hsle, ?_, rfl, ?_, rfl⟩
    · rcases faults with ⟨fd, fh, fc⟩
      simp only [Bool.not_eq_true] at hd hh hc
      simp [noFaults, hd, hh, hc]
    · intro n sc fc su rem sm fm h
      injection h with h1 h2 h3 h4 h5 h6 h7
      exact h5.symm
  · rename_i hnpos
    have hz : ((dispatchOutcomes gw addPrefixFn message
        (toBatches BATCH_SIZE contacts)).filter (fun o => o.status == "sent")).length = 0 := by
      omega
    split
    · exact Or.inl ⟨rfl, rfl, fun n sc fc su rem sm fm h => by cases h⟩
    · refine Or.inl ⟨rfl, by exact hz, ?_⟩
      intro n sc fc su rem sm fm h
      injection h with h1 h2 h3 h4 h5 h6 h7
      rw [getAvail, hbal]
      exact h5

/-- Ledger effect of one batched-revision run: either nothing was committed
(the database is unchanged, no sent count is reported, and any reported
`remainingBalance` equals the untouched balance), or (only with no injected
faults) the run committed a debit by the positive sent count `s` together
with one `"sent"` history row, and reported the post-debit balance. -/
theorem sendSmsV1_ledger (gw : Gateway) (addPrefixFn : String → String)
    (faults : SettleFaults) (req : SmsRequest) (db : Db) :
    ((sendSmsV1 gw addPrefixFn faults req db).db = db
      ∧ sentCountOf (sendSmsV1 gw addPrefixFn faults req db).resp = 0
      ∧ (∀ n sc fc su rem sm fm,
          (sendSmsV1 gw addPrefixFn faults req db).resp = Resp.okBatched n sc fc su rem sm fm →
            getAvail db req.clientId = rem))
    ∨ (∃ smsBalance s,
        findBalance db req.clientId = some smsBalance
        ∧ 0 < s ∧ s ≤ smsBalance.totalSmsAvailable ∧ faults = noFaults
        ∧ sentCountOf (sendSmsV1 gw addPrefixFn faults req db).resp = s
        ∧ (∀ n sc fc su rem sm fm,
            (sendSmsV1 gw addPrefixFn faults req db).resp = Resp.okBatched n sc fc su rem sm fm →
              rem = smsBalance.totalSmsAvailable - s)
        ∧ (sendSmsV1 gw addPrefixFn faults req db).db
            = commitTxn db
                (db.balances.map (fun b =>
                  if b.clientId == req.clientId then smsBalance.deductSms s else b))
                (db.history ++ [⟨req.clientId, req.message.getD "", s, s, "sent"⟩])) := by
  unfold sendSmsV1
  split
  · exact Or.inl ⟨rfl, rfl, fun n sc fc su rem sm fm h => by cases h⟩
  split
  · exact Or.inl ⟨rfl, rfl, fun n sc fc su rem sm fm h => by cases h⟩
  simp only []
  split
  · exact Or.inl ⟨rfl, rfl, fun n sc fc su rem sm fm h => by cases h⟩
  · split
    · exact Or.inl ⟨rfl, rfl, fun n sc fc su rem sm fm h => by cases h⟩
    split
    · exact Or.inl ⟨rfl, rfl, fun n sc fc su rem sm fm h => by cases h⟩
    rename_i smsBalance hbal
    rcases v1AfterResolve_ledger gw addPrefixFn faults req.clientId (req.message.getD "")
        db smsBalance (pagedFetchAll db req.clientId) hbal with h | ⟨s, hs⟩
    · exact Or.inl h
    · exact Or.inr ⟨smsBalance, s, hbal, hs.1, hs.2.1, hs.2.2.1, hs.2.2.2.1,
        hs.2.2.2.2.1, hs.2.2.2.2.2⟩
  · rename_i ids hall hids
    split
    · exact Or.inl ⟨rfl, rfl, fun n sc fc su rem sm fm h => by cases h⟩
    split
    · exact Or.inl ⟨rfl, rfl, fun n sc fc su rem sm fm h => by cases h⟩
    rename_i smsBalance hbal
    split
    · rcases v1AfterResolve_ledger gw addPrefixFn faults req.clientId (req.message.getD "")
          db smsBalance (fetchExplicit db req.clientId ids) hbal with h | ⟨s, hs⟩
      · exact Or.inl h
      · exact Or.inr ⟨smsBalance, s, hbal, hs.1, hs.2.1, hs.2.2.1, hs.2.2.2.1,
          hs.2.2.2.2.1, hs.2.2.2.2.2⟩
    · exact Or.inl ⟨rfl, rfl, fun n sc fc su rem sm fm h => by cases h⟩

/-! ### Run-evaluation helpers for specific control-flow paths -/

/-- Neither return shape of the gateway client carries an `error` property. -/
theorem errorField_none (r : SendSMSResult) : r.errorField = none := by
  cases r <;> rfl

/-- A gateway call that does not complete with status 200 (a non-200 status
or a caught transport error) yields a `failed` outcome entry for exactly the
affected recipient, with the `"Unknown error"` fallback text. -/
theorem outcomeOf_failed (gw : Gateway) (addPrefixFn : String → String)
    (message : String) (c : Contact)
    (h : gw (addPrefixFn c.phone) message ≠ .httpStatus 200) :
    outcomeOf gw addPrefixFn message c
      = ⟨c.id, c.name, c.phone, "failed", some "Unknown error"⟩ := by
  unfold outcomeOf
  split
  · rename_i heq
    exact absurd heq h
  · rw [errorField_none]
    rfl

/-- The explicit-ids resolver rejects with the selection mismatch when the
fetched row count differs from the requested id count. -/
theorem resolveContacts_mismatch (req : SmsRequest) (db : Db) (ids : List Nat)
    (hall : req.sendToAll = false) (hids : req.contactIds = some ids)
    (hmis : ((fetchExplicit db req.clientId ids).length == ids.length) = false) :
    resolveContacts req db = .error .selectionMismatch := by
  unfold resolveContacts
  simp [hall, hids, hmis]

/-- The batched revision reduces to its post-resolution tail whenever
validation, the message guard, the pre-count rate limit, the balance lookup
and the recipient resolution all pass. -/
theorem sendSmsV1_reaches (gw : Gateway) (addPrefixFn : String → String)
    (faults : SettleFaults) (req : SmsRequest) (db : Db)
    (contacts : List Contact) (smsBalance : SmsBalance)
    (hv : req.validationFailed = false)
    (hm : messageInvalid req.message = false)
    (hres : resolveContacts req db = .ok contacts)
    (hmax : contacts.length ≤ MAX_SMS_PER_REQUEST)
    (hbal : findBalance db req.clientId = some smsBalance) :
    sendSmsV1 gw addPrefixFn faults req db
      = v1AfterResolve gw addPrefixFn faults req.clientId (req.message.getD "")
          db smsBalance contacts := by
  have hmax' : ¬ (contacts.length > MAX_SMS_PER_REQUEST) := by omega
  unfold resolveContacts at hres
  by_cases hall : req.sendToAll = true
  · rw [if_pos (by rw [hall])] at hres
    injection hres with hcc
    unfold sendSmsV1
    simp [hv, hm, hall, hbal, pagedFetchAll_eq, hcc, hmax']
  · have hall' : req.sendToAll = false := by
      cases hq : req.sendToAll
      · rfl
      · exact absurd hq hall
    rw [if_neg (by rw [hall']; exact Bool.false_ne_true)] at hres
    cases hids : req.contactIds with
    | none =>
      rw [hids] at hres
      cases hres
    | some ids =>
      rw [hids] at hres
      simp only [] at hres
      by_cases hlen : ((fetchExplicit db req.clientId ids).length == ids.length) = true
      · rw [if_pos hlen] at hres
        injection hres with hcc
        have hlen' : ids.length = contacts.length := by
          rw [← hcc]
          exact (beq_iff_eq.mp hlen).symm
        unfold sendSmsV1
        simp [hv, hm, hall', hids, hbal, hcc, hmax', hlen, hlen']
      · rw [if_neg hlen] at hres
        cases hres

/-- The batched revision rejects an explicit-ids request whose fetched row
count differs from the requested id count, rolling back with no events. -/
theorem sendSmsV1_mismatch (gw : Gateway) (addPrefixFn : String → String)
    (faults : SettleFaults) (req : SmsRequest) (db : Db) (ids : List Nat)
    (smsBalance : SmsBalance)
    (hv : req.validationFailed = false)
    (hm : messageInvalid req.message = false)
    (hall : req.sendToAll = false) (hids : req.contactIds = some ids)
    (hmax : ids.length ≤ MAX_SMS_PER_REQUEST)
    (hbal : findBalance db req.clientId = some smsBalance)
    (hmis : ((fetchExplicit db req.clientId ids).length == ids.length) = false) :
    sendSmsV1 gw addPrefixFn faults req db = ⟨.selectionMismatch, db, []⟩ := by
  have hmax' : ¬ (ids.length > MAX_SMS_PER_REQUEST) := by omega
  unfold sendSmsV1
  simp [hv, hm, hall, hids, hbal, hmax', hmis]

/-- The bulk revisions reject with whatever error the resolver produced,
rolling back with no events. -/
theorem sendSmsV2_resolveError (gw : Gateway) (addPrefixFn : String → String)
    (faults : SettleFaults) (req : SmsRequest) (db : Db) (r : Resp)
    (hv : req.validationFailed = false)
    (hm : messageInvalid req.message = false)
    (hres : resolveContacts req db = .error r) :
    sendSmsV2 gw addPrefixFn faults req db = ⟨r, db, []⟩ := by
  unfold sendSmsV2
  simp [hv, hm, hres]

/-- The batched revision rejects with the insufficient-balance error, the
required and available counts, an unchanged database and no gateway calls. -/
theorem sendSmsV1_insufficient (gw : Gateway) (addPrefixFn : String → String)
    (faults : SettleFaults) (req : SmsRequest) (db : Db)
    (contacts : List Contact) (smsBalance : SmsBalance)
    (hv : req.validationFailed = false)
    (hm : messageInvalid req.message = false)
    (hres : resolveContacts req db = .ok contacts)
    (hne : contacts.isEmpty = false)
    (hmax : contacts.length ≤ MAX_SMS_PER_REQUEST)
    (hbal : findBalance db req.clientId = some smsBalance)
    (hins : smsBalance.hasEnoughBalance contacts.length = false) :
    sendSmsV1 gw addPrefixFn faults req db
      = ⟨.insufficientBalance contacts.length smsBalance.totalSmsAvailable, db, []⟩ := by
  rw [sendSmsV1_reaches gw addPrefixFn faults req db contacts smsBalance hv hm hres hmax hbal]
  unfold v1AfterResolve
  simp [hne, hins]

/-- The bulk revisions reject with the insufficient-balance error, the
required and available counts, an unchanged database and no gateway calls. -/
theorem sendSmsV2_insufficient (gw : Gateway) (addPrefixFn : String → String)
    (faults : SettleFaults) (req : SmsRequest) (db : Db)
    (contacts : List Contact) (smsBalance : SmsBalance)
    (hv : req.validationFailed = false)
    (hm : messageInvalid req.message = false)
    (hres : resolveContacts req db = .ok contacts)
    (hne : contacts.isEmpty = false)
    (hmax : contacts.length ≤ MAX_SMS_PER_REQUEST)
    (hbal : findBalance db req.clientId = some smsBalance)
    (hins : smsBalance.hasEnoughBalance contacts.length = false) :
    sendSmsV2 gw addPrefixFn faults req db
      = ⟨.insufficientBalance contacts.length smsBalance.totalSmsAvailable, db, []⟩ := by
  have hmax' : ¬ (contacts.length > MAX_SMS_PER_REQUEST) := by omega
  unfold sendSmsV2
  simp [hv, hm, hres, hne, hmax', hbal, hins]

/-- A faultless bulk-revision run that passes every guard commits the
full-count debit and one `"failed"` history row regardless of the gateway's
answer, issues exactly one gateway call, and reports the post-debit
balance. -/
theorem sendSmsV2_run (gw : Gateway) (addPrefixFn : String → String)
    (req : SmsRequest) (db : Db) (contacts : List Contact) (smsBalance : SmsBalance)
    (hv : req.validationFailed = false)
    (hm : messageInvalid req.message = false)
    (hres : resolveContacts req db = .ok contacts)
    (hne : contacts.isEmpty = false)
    (hmax : contacts.length ≤ MAX_SMS_PER_REQUEST)
    (hbal : findBalance db req.clientId = some smsBalance)
    (hsuff : smsBalance.hasEnoughBalance contacts.length = true) :
    sendSmsV2 gw addPrefixFn noFaults req db
      = ⟨.okBulk contacts.length "failed"
            (gw (joinNumbers addPrefixFn contacts) (req.message.getD ""))
            (smsBalance.totalSmsAvailable - contacts.length),
          commitTxn db
            (db.balances.map (fun b =>
              if b.clientId == req.clientId
              then smsBalance.deductSms contacts.length else b))
            (db.history ++ [⟨req.clientId, req.message.getD "", contacts.length,
              contacts.length, "failed"⟩]),
          [Ev.call (joinNumbers addPrefixFn contacts) (req.message.getD "")]⟩ := by
  have hmax' : ¬ (contacts.length > MAX_SMS_PER_REQUEST) := by omega
  unfold sendSmsV2 v2Settle
  simp [hv, hm, hres, hne, hmax', hbal, hsuff, noFaults, successField_falsy,
    SmsBalance.deductSms]

/-- A faultless batched-revision run that passes every guard and whose every
gateway call comes back without status 200 reports 0 sent / N failed, leaves
the database untouched (no debit and no history row), and still issues one
gateway call per recipient. -/
theorem sendSmsV1_allfail (gw : Gateway) (addPrefixFn : String → String)
    (req : SmsRequest) (db : Db) (contacts : List Contact) (smsBalance : SmsBalance)
    (hv : req.validationFailed = false)
    (hm : messageInvalid req.message = false)
    (hres : resolveContacts req db = .ok contacts)
    (hne : contacts.isEmpty = false)
    (hmax : contacts.length ≤ MAX_SMS_PER_REQUEST)
    (hbal : findBalance db req.clientId = some smsBalance)
    (hsuff : smsBalance.hasEnoughBalance contacts.length = true)
    (hfail : ∀ numbers m, gw numbers m ≠ .httpStatus 200) :
    sendSmsV1 gw addPrefixFn noFaults req db
      = ⟨.okBatched contacts.length 0 contacts.length 0 smsBalance.totalSmsAvailable []
            (contacts.map (fun c => ⟨c.id, c.name, c.phone, "failed", some "Unknown error"⟩)),
          db, dispatchEvents addPrefixFn (req.message.getD "") (toBatches BATCH_SIZE contacts)⟩ := by
  rw [sendSmsV1_reaches gw addPrefixFn noFaults req db contacts smsBalance hv hm hres hmax hbal]
  have hout : dispatchOutcomes gw addPrefixFn (req.message.getD "") (toBatches BATCH_SIZE contacts)
      = contacts.map (outcomeOf gw addPrefixFn (req.message.getD "")) :=
    dispatchOutcomes_toBatches gw addPrefixFn (req.message.getD "") BATCH_SIZE (by decide) contacts
  have hallfail : contacts.map (outcomeOf gw addPrefixFn (req.message.getD ""))
      = contacts.map (fun c => ⟨c.id, c.name, c.phone, "failed", some "Unknown error"⟩) :=
    List.map_congr_left (fun c _ =>
      outcomeOf_failed gw addPrefixFn (req.message.getD "") c (hfail _ _))
  have hsent : ((contacts.map (fun c =>
        (⟨c.id, c.name, c.phone, "failed", some "Unknown error"⟩ : MsgOutcome))).filter
          (fun o => o.status == "sent")) = [] := by
    rw [List.filter_eq_nil_iff]
    intro o ho
    rcases List.mem_map.mp ho with ⟨c, _, hc⟩
    rw [← hc]
    simp
  have hfailedAll : ((contacts.map (fun c =>
        (⟨c.id, c.name, c.phone, "failed", some "Unknown error"⟩ : MsgOutcome))).filter
          (fun o => o.status == "failed"))
      = contacts.map (fun c => ⟨c.id, c.name, c.phone, "failed", some "Unknown error"⟩) := by
    rw [List.filter_eq_self]
    intro o ho
    rcases List.mem_map.mp ho with ⟨c, _, hc⟩
    rw [← hc]
    simp
  unfold v1AfterResolve v1Settle
  simp [hne, hsuff, hout, hallfail, hsent, hfailedAll, noFaults]

/-- With pairwise-distinct stored contact ids, an id list containing a
duplicate can never fetch as many rows as it has entries: the fetched rows
have pairwise-distinct ids drawn from the list's distinct values. -/
theorem dup_fetch_short (db : Db) (cid : Nat) (ids : List Nat)
    (hpk : (db.contacts.map (fun c => c.id)).Nodup)
    (hdup : ¬ ids.Nodup) :
    (fetchExplicit db cid ids).length < ids.length := by
  have hsub : (fetchExplicit db cid ids).Sublist db.contacts :=
    List.filter_sublist db.contacts
  have hnodup : ((fetchExplicit db cid ids).map (fun c => c.id)).Nodup :=
    List.Nodup.sublist (List.Sublist.map (fun c => c.id) hsub) hpk
  have hmem : ∀ i ∈ (fetchExplicit db cid ids).map (fun c => c.id), i ∈ ids := by
    intro i hi
    rcases List.mem_map.mp hi with ⟨c, hc, hci⟩
    have hpc := List.of_mem_filter hc
    rw [Bool.and_eq_true] at hpc
    rw [← hci]
    simpa using hpc.1
  have hlen1 : ((fetchExplicit db cid ids).map (fun c => c.id)).length ≤ ids.dedup.length := by
    rw [← List.toFinset_card_of_nodup hnodup,
        ← List.toFinset_card_of_nodup (List.nodup_dedup ids)]
    apply Finset.card_le_card
    intro i hi
    rw [List.mem_toFinset] at hi
    rw [List.mem_toFinset, List.mem_dedup]
    exact hmem i hi
  have hlen2 : ids.dedup.length < ids.length := by
    rcases Nat.lt_or_ge ids.dedup.length ids.length with h | h
    · exact h
    · have heq : ids.dedup.length = ids.length :=
        Nat.le_antisymm (List.Sublist.length_le (List.dedup_sublist ids)) h
      have : ids.dedup = ids := List.Sublist.eq_of_length (List.dedup_sublist ids) heq
      rw [← this] at hdup
      exact absurd (List.nodup_dedup ids) hdup
  have hlenmap : ((fetchExplicit db cid ids).map (fun c => c.id)).length
      = (fetchExplicit db cid ids).length := List.length_map _ _
  omega

/-- Each per-recipient outcome entry carries the id of its recipient. -/
theorem outcomeOf_contactId (gw : Gateway) (addPrefixFn : String → String)
    (message : String) (c : Contact) :
    (outcomeOf gw addPrefixFn message c).contactId = c.id := by
  unfold outcomeOf
  split <;> rfl

/-- One batched-revision dispatch debits the requesting account by exactly
the sent count it reports (and touches nothing on every rejected or
rolled-back path). -/
theorem sendSmsV1_step (gw : Gateway) (addPrefixFn : String → String)
    (f : SettleFaults) (r : SmsRequest) (db : Db) :
    getAvail (sendSmsV1 gw addPrefixFn f r db).db r.clientId
      + sentCountOf (sendSmsV1 gw addPrefixFn f r db).resp = getAvail db r.clientId := by
  rcases sendSmsV1_ledger gw addPrefixFn f r db with
    ⟨hdb, hsent, _⟩ | ⟨bal, s, hbal, hs, hle, _, hsent, _, hdb⟩
  · rw [hdb, hsent]
    omega
  · have hcid : bal.clientId = r.clientId := by
      have := List.find?_some hbal
      simpa using this
    rw [hdb, hsent]
    show getAvail (commitTxn db _ _) r.clientId + s = getAvail db r.clientId
    unfold getAvail findBalance commitTxn
    simp only []
    rw [find?_map_update db.balances r.clientId (bal.deductSms s) hcid]
    unfold findBalance at hbal
    rw [hbal]
    simp [SmsBalance.deductSms]
    omega

/-! ### Claim theorems -/

/-- C4: for every dispatch that reaches the sending phase, the batched
dispatcher returns a complete outcome: exactly one entry per input recipient
in input order (so every recipient appears exactly once, and a gateway call
that returns an error or a non-200 status marks only the affected recipient
as failed, without aborting the remaining sends), and the sent count plus
the failed count equals the attempted count. -/
theorem claim4_complete_outcome (gw : Gateway) (addPrefixFn : String → String)
    (message : String) (contacts : List Contact) :
    dispatchOutcomes gw addPrefixFn message (toBatches BATCH_SIZE contacts)
        = contacts.map (outcomeOf gw addPrefixFn message)
    ∧ (dispatchOutcomes gw addPrefixFn message (toBatches BATCH_SIZE contacts)).map
          (fun o => o.contactId)
        = contacts.map (fun c => c.id)
    ∧ ((dispatchOutcomes gw addPrefixFn message (toBatches BATCH_SIZE contacts)).filter
          (fun o => o.status == "sent")).length
      + ((dispatchOutcomes gw addPrefixFn message (toBatches BATCH_SIZE contacts)).filter
          (fun o => o.status == "failed")).length
      = contacts.length := by
  have hout := dispatchOutcomes_toBatches gw addPrefixFn message BATCH_SIZE (by decide) contacts
  refine ⟨hout, ?_, ?_⟩
  · rw [hout, List.map_map]
    exact List.map_congr_left (fun c _ => outcomeOf_contactId gw addPrefixFn message c)
  · rw [hout, length_filter_sent_add_failed]
    · exact List.length_map _ _
    · intro o ho
      rcases List.mem_map.mp ho with ⟨c, _, hc⟩
      rw [← hc]
      exact outcomeOf_status gw addPrefixFn message c

/-- C8: the batched revision partitions the recipient list into batches of
at most `BATCH_SIZE = 1000` whose in-order concatenation is the input list,
and the sequential batch loop's event trace is the per-batch gateway calls
with one fixed 1000 ms delay between consecutive batches and no delay after
the last batch. -/
theorem claim8_batching (addPrefixFn : String → String) (message : String)
    (contacts : List Contact) :
    (toBatches BATCH_SIZE contacts).flatten = contacts
    ∧ (∀ b ∈ toBatches BATCH_SIZE contacts, b.length ≤ BATCH_SIZE ∧ b ≠ [])
    ∧ dispatchEvents addPrefixFn message (toBatches BATCH_SIZE contacts)
        = (((toBatches BATCH_SIZE contacts).map
              (batchEvents addPrefixFn message)).intersperse [Ev.delay 1000]).flatten :=
  ⟨toBatches_flatten BATCH_SIZE (by decide) contacts,
   fun b hb => toBatches_mem BATCH_SIZE (by decide) contacts b hb,
   dispatchEvents_eq_intersperse addPrefixFn message (toBatches BATCH_SIZE contacts)⟩

/-- Witness for C8 at a concrete two-recipient list forming one batch. -/
theorem claim8_witness :
    ([⟨1, "a", "0712", 1⟩, ⟨2, "b", "0713", 1⟩] : List Contact).length ≤ BATCH_SIZE
    ∧ ([⟨1, "a", "0712", 1⟩, ⟨2, "b", "0713", 1⟩] : List Contact) ≠ [] :=
  (claim8_batching addP "hello" [⟨1, "a", "0712", 1⟩, ⟨2, "b", "0713", 1⟩]).2.1
    [⟨1, "a", "0712", 1⟩, ⟨2, "b", "0713", 1⟩] (by decide)

/-- C9: in the single-bulk-call revisions, whatever the gateway outcome (any
HTTP status, including 200, or a caught transport error), every history row
the run commits has status `"failed"` and any reported per-dispatch status is
`"failed"`, because the gateway client returns a numeric status or an error
object and the controller reads a `success` field neither value carries. -/
theorem claim9_bulk_always_failed (gw : Gateway) (addPrefixFn : String → String)
    (faults : SettleFaults) (req : SmsRequest) (db : Db) :
    (∀ e ∈ (sendSmsV2 gw addPrefixFn faults req db).db.history,
        e ∈ db.history ∨ e.status = "failed")
    ∧ (∀ n s g b, (sendSmsV2 gw addPrefixFn faults req db).resp = Resp.okBulk n s g b →
        s = "failed")
    ∧ (∀ e ∈ (sendSmsV3 gw addPrefixFn faults req db).db.history,
        e ∈ db.history ∨ e.status = "failed")
    ∧ (∀ n s g b, (sendSmsV3 gw addPrefixFn faults req db).resp = Resp.okBulk n s g b →
        s = "failed") := by
  have h : (∀ e ∈ (sendSmsV2 gw addPrefixFn faults req db).db.history,
        e ∈ db.history ∨ e.status = "failed")
      ∧ (∀ n s g b, (sendSmsV2 gw addPrefixFn faults req db).resp = Resp.okBulk n s g b →
        s = "failed") := by
    rcases sendSmsV2_ledger gw addPrefixFn faults req db with
      ⟨hdb, hresp⟩ | ⟨bal, cs, _, _, _, _, _, heq⟩
    · constructor
      · intro e he
        rw [hdb] at he
        exact Or.inl he
      · intro n s g b hr
        exact absurd hr (hresp n s g b)
    · constructor
      · intro e he
        rw [heq] at he
        simp only [commitTxn, List.mem_append, List.mem_singleton] at he
        rcases he with he | he
        · exact Or.inl he
        · right
          rw [he]
      · intro n s g b hr
        rw [heq] at hr
        injection hr with h1 h2 h3 h4
        exact h2.symm
  exact ⟨h.1, h.2, h.1, h.2⟩

/-- Witness for C9: even with a gateway answering HTTP 200, the committed
history row's status is `"failed"`. -/
theorem claim9_witness :
    (⟨1, "hello", 2, 2, "failed"⟩ : HistoryEntry) ∈ dbA.history
    ∨ (⟨1, "hello", 2, 2, "failed"⟩ : HistoryEntry).status = "failed" :=
  (claim9_bulk_always_failed gwOk200 addP noFaults reqAll dbA).1
    ⟨1, "hello", 2, 2, "failed"⟩ (by decide)

/-- C3: in both revisions, a dispatch whose attempted recipient count
exceeds the account's available credit is rejected with the
insufficient-balance error reporting required versus available, the event
trace is empty (no gateway call was or will be made), and the database —
in particular the balance — is unchanged. -/
theorem claim3_insufficient_rejected (gw : Gateway) (addPrefixFn : String → String)
    (faults : SettleFaults) (req : SmsRequest) (db : Db)
    (contacts : List Contact) (smsBalance : SmsBalance)
    (hv : req.validationFailed = false)
    (hm : messageInvalid req.message = false)
    (hres : resolveContacts req db = .ok contacts)
    (hne : contacts.isEmpty = false)
    (hmax : contacts.length ≤ MAX_SMS_PER_REQUEST)
    (hbal : findBalance db req.clientId = some smsBalance)
    (hover : smsBalance.totalSmsAvailable < contacts.length) :
    sendSmsV1 gw addPrefixFn faults req db
        = ⟨.insufficientBalance contacts.length smsBalance.totalSmsAvailable, db, []⟩
    ∧ sendSmsV2 gw addPrefixFn faults req db
        = ⟨.insufficientBalance contacts.length smsBalance.totalSmsAvailable, db, []⟩ := by
  have hins : smsBalance.hasEnoughBalance contacts.length = false := by
    simp only [SmsBalance.hasEnoughBalance, decide_eq_false_iff_not]
    omega
  exact ⟨sendSmsV1_insufficient gw addPrefixFn faults req db contacts smsBalance
      hv hm hres hne hmax hbal hins,
    sendSmsV2_insufficient gw addPrefixFn faults req db contacts smsBalance
      hv hm hres hne hmax hbal hins⟩

/-- Witness for C3: the spec's example — balance 2, send-to-all resolving to
10 recipients — is rejected with required 10 versus available 2, no events,
database unchanged, in both revisions. -/
theorem claim3_witness :
    sendSmsV1 gwOk200 addP noFaults reqAll dbTen
        = ⟨.insufficientBalance 10 2, dbTen, []⟩
    ∧ sendSmsV2 gwOk200 addP noFaults reqAll dbTen
        = ⟨.insufficientBalance 10 2, dbTen, []⟩ :=
  claim3_insufficient_rejected gwOk200 addP noFaults reqAll dbTen
    (clientContacts dbTen 1) ⟨1, 2⟩ rfl (by decide) rfl (by decide)
    (by decide) (by decide) (by decide)

/-- C6: in both revisions, an explicit-ids dispatch fetches the rows matching
both the given ids and the requesting account (`fetchExplicit`), and when the
fetched count differs from the requested id count the request is rejected
with the selection-mismatch error with no side effects: database unchanged,
no gateway calls, no debit, no history row. -/
theorem claim6_selection_mismatch (gw : Gateway) (addPrefixFn : String → String)
    (faults : SettleFaults) (req : SmsRequest) (db : Db) (ids : List Nat)
    (smsBalance : SmsBalance)
    (hv : req.validationFailed = false)
    (hm : messageInvalid req.message = false)
    (hall : req.sendToAll = false)
    (hids : req.contactIds = some ids)
    (hmax : ids.length ≤ MAX_SMS_PER_REQUEST)
    (hbal : findBalance db req.clientId = some smsBalance)
    (hmis : (fetchExplicit db req.clientId ids).length ≠ ids.length) :
    sendSmsV1 gw addPrefixFn faults req db = ⟨.selectionMismatch, db, []⟩
    ∧ sendSmsV2 gw addPrefixFn faults req db = ⟨.selectionMismatch, db, []⟩ := by
  have hmisb : ((fetchExplicit db req.clientId ids).length == ids.length) = false := by
    simpa using hmis
  exact ⟨sendSmsV1_mismatch gw addPrefixFn faults req db ids smsBalance
      hv hm hall hids hmax hbal hmisb,
    sendSmsV2_resolveError gw addPrefixFn faults req db .selectionMismatch hv hm
      (resolveContacts_mismatch req db ids hall hids hmisb)⟩

/-- Witness for C6: the spec's example — explicit selection `[1,2,3]` where
recipient 3 belongs to another account — is rejected with the
selection-mismatch error and no side effects, in both revisions. -/
theorem claim6_witness :
    sendSmsV1 gwOk200 addP noFaults reqForeign dbA = ⟨.selectionMismatch, dbA, []⟩
    ∧ sendSmsV2 gwOk200 addP noFaults reqForeign dbA = ⟨.selectionMismatch, dbA, []⟩ :=
  claim6_selection_mismatch gwOk200 addP noFaults reqForeign dbA [1, 2, 3] ⟨1, 5⟩
    rfl (by decide) rfl rfl (by decide) (by decide) (by decide)

/-- C10: in both revisions, an explicit-ids dispatch whose id list contains a
duplicate is rejected with the selection-mismatch error even when every
listed id exists and belongs to the requesting account: the fetch returns
distinct rows (the stored ids are pairwise distinct), so the fetched count is
strictly below the raw list length the check compares against. -/
theorem claim10_duplicate_ids_rejected (gw : Gateway) (addPrefixFn : String → String)
    (faults : SettleFaults) (req : SmsRequest) (db : Db) (ids : List Nat)
    (smsBalance : SmsBalance)
    (hv : req.validationFailed = false)
    (hm : messageInvalid req.message = false)
    (hall : req.sendToAll = false)
    (hids : req.contactIds = some ids)
    (hmax : ids.length ≤ MAX_SMS_PER_REQUEST)
    (hbal : findBalance db req.clientId = some smsBalance)
    (hdup : ¬ ids.Nodup)
    (hpk : (db.contacts.map (fun c => c.id)).Nodup)
    (_hexists : ∀ i ∈ ids, ∃ c ∈ db.contacts, c.id = i ∧ c.clientId = req.clientId) :
    sendSmsV1 gw addPrefixFn faults req db = ⟨.selectionMismatch, db, []⟩
    ∧ sendSmsV2 gw addPrefixFn faults req db = ⟨.selectionMismatch, db, []⟩ := by
  have hlt := dup_fetch_short db req.clientId ids hpk hdup
  have hmisb : ((fetchExplicit db req.clientId ids).length == ids.length) = false := by
    have : (fetchExplicit db req.clientId ids).length ≠ ids.length := by omega
    simpa using this
  exact ⟨sendSmsV1_mismatch gw addPrefixFn faults req db ids smsBalance
      hv hm hall hids hmax hbal hmisb,
    sendSmsV2_resolveError gw addPrefixFn faults req db .selectionMismatch hv hm
      (resolveContacts_mismatch req db ids hall hids hmisb)⟩

/-- Witness for C10: the duplicate list `[1,1]`, where contact 1 exists and
belongs to the requesting client, is rejected in both revisions. -/
theorem claim10_witness :
    sendSmsV1 gwOk200 addP noFaults reqDup dbA = ⟨.selectionMismatch, dbA, []⟩
    ∧ sendSmsV2 gwOk200 addP noFaults reqDup dbA = ⟨.selectionMismatch, dbA, []⟩ :=
  claim10_duplicate_ids_rejected gwOk200 addP noFaults reqDup dbA [1, 1] ⟨1, 5⟩
    rfl (by decide) rfl rfl (by decide) (by decide) (by decide) (by decide)
    (by decide)

/-- C2: in both revisions one dispatch execution commits a history row if and
only if it commits a balance change (both writes live in the same
transaction), and an injected error at the debit, the history write or the
commit rolls both back, leaving the database untouched. -/
theorem claim2_atomic_settle (gw : Gateway) (addPrefixFn : String → String)
    (faults : SettleFaults) (req : SmsRequest) (db : Db) :
    ((sendSmsV1 gw addPrefixFn faults req db).db.history ≠ db.history
      ↔ (sendSmsV1 gw addPrefixFn faults req db).db.balances ≠ db.balances)
    ∧ ((sendSmsV2 gw addPrefixFn faults req db).db.history ≠ db.history
      ↔ (sendSmsV2 gw addPrefixFn faults req db).db.balances ≠ db.balances)
    ∧ ((faults.debit || faults.history || faults.commit) = true →
        (sendSmsV1 gw addPrefixFn faults req db).db = db
        ∧ (sendSmsV2 gw addPrefixFn faults req db).db = db) := by
  have hv1 := sendSmsV1_ledger gw addPrefixFn faults req db
  have hv2 := sendSmsV2_ledger gw addPrefixFn faults req db
  refine ⟨?_, ?_, ?_⟩
  · rcases hv1 with ⟨hdb, _, _⟩ | ⟨bal, s, hbal, hs, hle, _, _, _, hdb⟩
    · rw [hdb]
      simp
    · rw [hdb]
      have hBne : db.balances.map
          (fun b => if b.clientId == req.clientId then bal.deductSms s else b)
            ≠ db.balances := by
        refine map_update_ne db.balances req.clientId bal (bal.deductSms s) hbal ?_
        intro hq
        have hq2 := congrArg SmsBalance.totalSmsAvailable hq
        simp only [SmsBalance.deductSms] at hq2
        omega
      have hHne : db.history
          ++ [(⟨req.clientId, req.message.getD "", s, s, "sent"⟩ : HistoryEntry)]
            ≠ db.history := by
        intro hq
        have := congrArg List.length hq
        simp at this
      exact Iff.intro (fun _ => hBne) (fun _ => hHne)
  · rcases hv2 with ⟨hdb, _⟩ | ⟨bal, cs, hbal, _, hneq, hle, _, heq⟩
    · rw [hdb]
      simp
    · rw [heq]
      have hcs : 0 < cs.length := List.length_pos.mpr hneq
      have hBne : db.balances.map
          (fun b => if b.clientId == req.clientId then bal.deductSms cs.length else b)
            ≠ db.balances := by
        refine map_update_ne db.balances req.clientId bal (bal.deductSms cs.length) hbal ?_
        intro hq
        have hq2 := congrArg SmsBalance.totalSmsAvailable hq
        simp only [SmsBalance.deductSms] at hq2
        omega
      have hHne : db.history
          ++ [(⟨req.clientId, req.message.getD "", cs.length, cs.length,
                "failed"⟩ : HistoryEntry)]
            ≠ db.history := by
        intro hq
        have := congrArg List.length hq
        simp at this
      exact Iff.intro (fun _ => hBne) (fun _ => hHne)
  · intro hf
    constructor
    · rcases hv1 with ⟨hdb, _, _⟩ | ⟨bal, s, _, _, _, hnf, _, _, _⟩
      · exact hdb
      · rw [hnf] at hf
        simp [noFaults] at hf
    · rcases hv2 with ⟨hdb, _⟩ | ⟨bal, cs, _, _, _, _, hnf, _⟩
      · exact hdb
      · rw [hnf] at hf
        simp [noFaults] at hf

/-- Witness for C2: with an injected history-write failure, both revisions
leave the database exactly as it was. -/
theorem claim2_witness :
    (sendSmsV1 gwOk200 addP ⟨false, true, false⟩ reqAll dbA).db = dbA
    ∧ (sendSmsV2 gwOk200 addP ⟨false, true, false⟩ reqAll dbA).db = dbA :=
  (claim2_atomic_settle gwOk200 addP ⟨false, true, false⟩ reqAll dbA).2.2 (by decide)

/-- Counterexample to C5 as stated: in the batched revision a dispatch whose
every send fails (gateway always returns a caught transport error) debits
nothing but also writes NO history entry at all — the run reports 0 sent and
2 failed, yet the history stays empty instead of holding a `failed` row. -/
theorem claim5_counterexample :
    (sendSmsV1 gwDown addP noFaults reqAll dbA).db.history = []
    ∧ (sendSmsV1 gwDown addP noFaults reqAll dbA).resp
        = .okBatched 2 0 2 0 5 []
            [⟨1, "a", "0712", "failed", some "Unknown error"⟩,
             ⟨2, "b", "0713", "failed", some "Unknown error"⟩] := by
  decide

/-- C5 amended: a dispatch whose every recipient send fails results, in the
batched revision, in zero debit and NO history entry (the settle block is
guarded by `successfulSends > 0`, so the database is untouched while the
response reports 0 sent / N failed); in the bulk revisions it results in a
history entry with status `"failed"` recording N recipients but a debit of
the full attempted count N, not zero. -/
theorem claim5_amended (gw : Gateway) (addPrefixFn : String → String)
    (req : SmsRequest) (db : Db) (contacts : List Contact) (smsBalance : SmsBalance)
    (hv : req.validationFailed = false)
    (hm : messageInvalid req.message = false)
    (hres : resolveContacts req db = .ok contacts)
    (hne : contacts.isEmpty = false)
    (hmax : contacts.length ≤ MAX_SMS_PER_REQUEST)
    (hbal : findBalance db req.clientId = some smsBalance)
    (hsuff : smsBalance.hasEnoughBalance contacts.length = true)
    (hfail : ∀ numbers m, gw numbers m ≠ .httpStatus 200) :
    sendSmsV1 gw addPrefixFn noFaults req db
      = ⟨.okBatched contacts.length 0 contacts.length 0 smsBalance.totalSmsAvailable []
            (contacts.map (fun c => ⟨c.id, c.name, c.phone, "failed", some "Unknown error"⟩)),
          db, dispatchEvents addPrefixFn (req.message.getD "") (toBatches BATCH_SIZE contacts)⟩
    ∧ sendSmsV2 gw addPrefixFn noFaults req db
      = ⟨.okBulk contacts.length "failed"
            (gw (joinNumbers addPrefixFn contacts) (req.message.getD ""))
            (smsBalance.totalSmsAvailable - contacts.length),
          commitTxn db
            (db.balances.map (fun b =>
              if b.clientId == req.clientId
              then smsBalance.deductSms contacts.length else b))
            (db.history ++ [⟨req.clientId, req.message.getD "", contacts.length,
              contacts.length, "failed"⟩]),
          [Ev.call (joinNumbers addPrefixFn contacts) (req.message.getD "")]⟩ :=
  ⟨sendSmsV1_allfail gw addPrefixFn req db contacts smsBalance
      hv hm hres hne hmax hbal hsuff hfail,
    sendSmsV2_run gw addPrefixFn req db contacts smsBalance
      hv hm hres hne hmax hbal hsuff⟩

/-- Witness for C5 (amended) at the concrete all-failing scenario. -/
theorem claim5_witness :
    sendSmsV1 gwDown addP noFaults reqAll dbA
      = ⟨.okBatched 2 0 2 0 5 []
            [⟨1, "a", "0712", "failed", some "Unknown error"⟩,
             ⟨2, "b", "0713", "failed", some "Unknown error"⟩],
          dbA, [.call "+2550712" "hello", .call "+2550713" "hello"]⟩
    ∧ sendSmsV2 gwDown addP noFaults reqAll dbA
      = ⟨.okBulk 2 "failed" (.errObj "timeout") 3,
          ⟨dbA.contacts, [⟨1, 3⟩, ⟨2, 1⟩], [⟨1, "hello", 2, 2, "failed"⟩]⟩,
          [.call "+2550712,+2550713" "hello"]⟩ :=
  claim5_amended gwDown addP reqAll dbA (clientContacts dbA 1) ⟨1, 5⟩
    rfl (by decide) rfl (by decide) (by decide) (by decide) (by decide)
    (fun numbers m h => by simp [gwDown] at h)

/-- Counterexample to C7 as stated: on the same request, gateway behaviour
and initial state (a gateway that always fails with a caught transport
error), the batched revision commits nothing while the bulk revision debits
the full count and writes a history row — the committed states differ. -/
theorem claim7_counterexample :
    (sendSmsV1 gwDown addP noFaults reqAll dbA).db
      ≠ (sendSmsV2 gwDown addP noFaults reqAll dbA).db := by
  decide

/-- C7 amended: only the two single-bulk-call revisions are functionally
equivalent (they are the same logic verbatim); the per-recipient batched
revision is not equivalent to them — there are identical inputs on which the
committed database states differ. -/
theorem claim7_amended :
    sendSmsV3 = sendSmsV2
    ∧ ∃ (gw : Gateway) (addPrefixFn : String → String) (faults : SettleFaults)
        (req : SmsRequest) (db : Db),
        (sendSmsV1 gw addPrefixFn faults req db).db
          ≠ (sendSmsV2 gw addPrefixFn faults req db).db :=
  ⟨rfl, gwDown, addP, noFaults, reqAll, dbA, by decide⟩

/-- Counterexample to C1 as stated: a committed bulk-revision dispatch whose
own history row records status `"failed"` (the gateway call failed, nothing
was confirmed sent) still debits the full attempted count 2, so the balance
does not equal initial credit minus the sum of sent counts. -/
theorem claim1_counterexample :
    (sendSmsV2 gwDown addP noFaults reqAll dbA).db.balances = [⟨1, 3⟩, ⟨2, 1⟩]
    ∧ (sendSmsV2 gwDown addP noFaults reqAll dbA).db.history
        = [⟨1, "hello", 2, 2, "failed"⟩]
    ∧ dbA.balances = [⟨1, 5⟩, ⟨2, 1⟩] := by
  decide

/-- C1 amended: the debit-by-confirmed-sent invariant holds for the batched
revision only: over any sequence of batched-revision dispatches by one
account, the account's available credit decreases by exactly the total sent
count reported across the committed dispatches, and every success response
reports `remainingBalance` equal to the post-commit balance. (The bulk
revisions debit the full attempted count instead — see the
counterexample.) -/
theorem claim1_amended (gw : Gateway) (addPrefixFn : String → String) (db : Db)
    (c : Nat) (seq : List (SettleFaults × SmsRequest))
    (hc : ∀ p ∈ seq, p.2.clientId = c) :
    getAvail (runSeqV1 gw addPrefixFn db seq).1 c
        + totalSent (runSeqV1 gw addPrefixFn db seq).2
        = getAvail db c
    ∧ (∀ faults req db0 n sc fc su rem sm fm, req.clientId = c →
        (sendSmsV1 gw addPrefixFn faults req db0).resp = Resp.okBatched n sc fc su rem sm fm →
          getAvail (sendSmsV1 gw addPrefixFn faults req db0).db c = rem) := by
  constructor
  · induction seq generalizing db with
    | nil => simp [runSeqV1, totalSent]
    | cons p rest ih =>
      obtain ⟨f, r⟩ := p
      have hc1 : r.clientId = c := hc (f, r) (List.mem_cons_self _ _)
      have hstep := sendSmsV1_step gw addPrefixFn f r db
      rw [hc1] at hstep
      have ihh := ih (sendSmsV1 gw addPrefixFn f r db).db
        (fun p hp => hc p (List.mem_cons_of_mem _ hp))
      simp only [runSeqV1, totalSent, List.map_cons, List.sum_cons] at *
      omega
  · intro faults req db0 n sc fc su rem sm fm hcid hresp
    rcases sendSmsV1_ledger gw addPrefixFn faults req db0 with
      ⟨hdb, _, himp⟩ | ⟨bal, s, hbal, hs, hle, _, _, himp, hdb⟩
    · rw [hdb, ← hcid]
      exact himp n sc fc su rem sm fm hresp
    · have hrem := himp n sc fc su rem sm fm hresp
      have hcid2 : bal.clientId = req.clientId := by
        have := List.find?_some hbal
        simpa using this
      rw [hdb, ← hcid]
      unfold getAvail findBalance commitTxn
      simp only []
      rw [find?_map_update db0.balances req.clientId (bal.deductSms s) hcid2]
      unfold findBalance at hbal
      rw [hbal]
      simp [SmsBalance.deductSms, hrem]

/-- Witness for C1 (amended): two consecutive explicit-ids dispatches by
client 1, both fully successful, against the accounting equation. -/
theorem claim1_witness :
    getAvail (runSeqV1 gwOk200 addP dbA [(noFaults, reqIds), (noFaults, reqIds)]).1 1
      + totalSent (runSeqV1 gwOk200 addP dbA [(noFaults, reqIds), (noFaults, reqIds)]).2
      = getAvail dbA 1 :=
  (claim1_amended gwOk200 addP dbA 1 [(noFaults, reqIds), (noFaults, reqIds)]
    (by decide)).1

end BulkSms
